import Mathlib

/-!
Shallow embedding of the layout-matching core of the pycvm repository:
the layout matcher (`make_balance` in `cvm/balance/balance.py`), the
multi-layout resolver (`BalanceSheet.from_accounts` in
`cvm/balances/balance_sheet.py`), the derived balance-sheet fields
(`gross_debt`, `net_debt`), and the statement-group dispatch
(`Statement.balance` in `cvm/parsing/dfp/statement.py`).
-/

namespace Cvm

/-- Number of dot-separated segments of an account code: dots plus one.
Mirrors the expression `t[0].count('.') + 1` used by `make_balance`. -/
def codeLevel (code : String) : Nat :=
  (code.data.filter (fun c => c == '.')).length + 1

/-- Modelled from the spec: the `Account` data type (`cvm.datatypes.account`
is not under src/). One line item of a filing: a dot-separated hierarchical
`code`, a free-text `name`, a signed `quantity`, and the regulator's
fixed-chart flag `is_fixed`. -/
structure Account where
  code : String
  name : String
  quantity : Int
  is_fixed : Bool
deriving DecidableEq

/-- Modelled from the spec: `level` is derived, the number of dot-separated
segments of `code`. -/
def Account.level (a : Account) : Nat := codeLevel a.code

/-- One expected skeleton position of a layout: one triple
`(expected_code, expected_name, attr)` of `cls.__layout__`. -/
structure LayoutEntry where
  expected_code : String
  expected_name : String
  attr : String
deriving DecidableEq

/-- `max(t[0].count('.') + 1 for t in cls.__layout__)` over a non-empty
layout, as a fold (every `codeLevel` is positive, so starting at 0 agrees
with Python's `max` over the non-empty sequence). -/
def layoutMaxLevel (layout : List LayoutEntry) : Nat :=
  layout.foldl (fun m e => max m (codeLevel e.expected_code)) 0

/-- The three `BalanceLayoutError` messages `make_balance` can raise, with
the data each message carries (index, found and expected strings). -/
inductive LayoutError where
  | tooFewAccounts (position : Nat)
  | codeMismatch (position : Nat) (found expected : String)
  | nameMismatch (position : Nat) (found expected : String)
deriving DecidableEq

/-- `make_balance` either raises a generic `ValueError` (from `max()` on an
empty layout) or a `BalanceLayoutError`. -/
inductive BalanceError where
  | valueError
  | layoutErr (e : LayoutError)
deriving DecidableEq

/-- The attribute dictionary built during matching. -/
abbrev AttrMap := List (String × Int)

/-- Python dict assignment `attributes[attr] = q`: overwrite in place when
the key is present, append otherwise. -/
def insertAttr (m : AttrMap) (k : String) (v : Int) : AttrMap :=
  if (List.any m (fun p => p.1 == k)) then
    List.map (fun p => if p.1 == k then (k, v) else p) m
  else
    m ++ [(k, v)]

/-- A category parser: the `AccountParser` hook of `cvm/balance/balance.py`,
with its mutable state made explicit as a value of type `σ`. -/
structure AccountParser (σ : Type) where
  init : σ
  parse : σ → Account → σ
  finish : σ → AttrMap → AttrMap

/-- The default no-op `AccountParser`: `parse` does nothing and `finish`
returns the attributes unchanged. -/
def AccountParser.noop : AccountParser Unit :=
  ⟨(), fun s _ => s, fun _ m => m⟩

/-- `acc.is_fixed and acc.level <= max_layout_level`: the condition under
which a pulled account is compared against the current layout entry. -/
def skeletonCandidate (ml : Nat) (a : Account) : Bool :=
  a.is_fixed && decide (a.level ≤ ml)

/-- The inner `while True` loop of `make_balance` for one layout entry
`e` at index `i`: pull accounts from the cursor, feeding non-candidates to
`parse`, until a skeleton candidate is found (compared code first, then
name) or the cursor is exhausted. Returns the matched quantity, the parser
state, and the remaining cursor. -/
def pullAccount {σ : Type} (parse : σ → Account → σ) (ml : Nat)
    (e : LayoutEntry) (i : Nat) :
    σ → List Account → Except LayoutError (Int × σ × List Account)
  | _, [] => .error (.tooFewAccounts i)
  | s, a :: rest =>
    if skeletonCandidate ml a then
      if a.code ≠ e.expected_code then
        .error (.codeMismatch i a.code e.expected_code)
      else if a.name ≠ e.expected_name then
        .error (.nameMismatch i a.name e.expected_name)
      else
        .ok (a.quantity, s, rest)
    else
      pullAccount parse ml e i (parse s a) rest

/-- The outer `for i, (expected_code, expected_name, attr) in enumerate(...)`
loop of `make_balance`: match each layout entry in order, threading the
parser state, the attribute map and the cursor. -/
def matchEntries {σ : Type} (parse : σ → Account → σ) (ml : Nat) :
    List LayoutEntry → Nat → σ → AttrMap → List Account →
    Except LayoutError (σ × AttrMap)
  | [], _, s, attrs, _ => .ok (s, attrs)
  | e :: es, i, s, attrs, accounts =>
    match pullAccount parse ml e i s accounts with
    | .error err => .error err
    | .ok (q, s', rest) =>
        matchEntries parse ml es (i + 1) s' (insertAttr attrs e.attr q) rest

/-- Wrap a `matchEntries` result the way `make_balance` finishes: a layout
error propagates, a success is passed through `parser.finish`. -/
def finishWith {σ : Type} (p : AccountParser σ)
    (r : Except LayoutError (σ × AttrMap)) : Except BalanceError AttrMap :=
  match r with
  | .error e => .error (.layoutErr e)
  | .ok (s, attrs) => .ok (p.finish s attrs)

/-- `make_balance(cls, accounts)`: compute `max_layout_level` (Python's
`max` raises `ValueError` on an empty layout, before any account is
consumed), then run the entry loop from index 0 with an empty attribute
dict, and finish with `parser.finish`. -/
def make_balance {σ : Type} (p : AccountParser σ) (layout : List LayoutEntry)
    (accounts : List Account) : Except BalanceError AttrMap :=
  if layout.isEmpty then .error .valueError
  else
    finishWith p
      (matchEntries p.parse (layoutMaxLevel layout) layout 0 p.init [] accounts)

/-- Well-formed account sequence shape used by the matching claims: for each
layout entry, a block of interleaved detail accounts followed by that
entry's skeleton account. `buildSeq` flattens the blocks into the account
sequence the matcher consumes. -/
def buildSeq (blocks : List (List Account × Account)) : List Account :=
  blocks.foldr (fun b acc => b.1 ++ b.2 :: acc) []

/-- One block conforms to one layout entry: all accounts of the detail part
are non-candidates (`is_fixed` false, or level above `ml`), and the
skeleton account is a candidate whose code and name equal the entry's
expected strings. -/
def entryBlockOk (ml : Nat) (e : LayoutEntry) (b : List Account × Account) : Bool :=
  b.1.all (fun a => ! skeletonCandidate ml a) && skeletonCandidate ml b.2 &&
    (b.2.code == e.expected_code) && (b.2.name == e.expected_name)

/-- Parser state after feeding every detail account of every block to the
`parse` hook, in order. -/
def detailsFold {σ : Type} (parse : σ → Account → σ) (s : σ)
    (blocks : List (List Account × Account)) : σ :=
  blocks.foldl (fun st b => b.1.foldl parse st) s

/-- Attribute map after storing, for each matched entry, the skeleton
account's quantity under the entry's attribute key. -/
def blockAttrs (attrs : AttrMap) (es : List LayoutEntry)
    (blocks : List (List Account × Account)) : AttrMap :=
  (es.zip blocks).foldl (fun m p => insertAttr m p.1.attr p.2.2.quantity) attrs

instance {ε α : Type} [DecidableEq ε] [DecidableEq α] : DecidableEq (Except ε α) := fun x y =>
  match x, y with
  | .error a, .error b =>
    if h : a = b then isTrue (congrArg Except.error h)
    else isFalse fun hc => h (Except.error.inj hc)
  | .error _, .ok _ => isFalse fun hc => Except.noConfusion hc
  | .ok _, .error _ => isFalse fun hc => Except.noConfusion hc
  | .ok a, .ok b =>
    if h : a = b then isTrue (congrArg Except.ok h)
    else isFalse fun hc => h (Except.ok.inj hc)

/-- One side validator of `__validator_pairs__`: its class name (used in the
recorded diagnostic string) and its `validate` method, abstracted as a
function from the (freshly normalized) account sequence to either an
attribute map or an `AccountLayoutError`. The concrete validator classes
live outside src/ and are treated as configuration. -/
structure Validator where
  vname : String
  validate : List Account → Except LayoutError AttrMap

/-- The `for bpa_validator, bpp_validator in __validator_pairs__` loop of
`BalanceSheet.from_accounts`, with `error_str` made explicit: try the BPA
side; on failure record the diagnostic and continue; on success try the BPP
side; on failure record and continue; on both-sides success return the
merged keyword arguments `cls(**bpa_attrs, **bpp_attrs)`. When the pair
list is exhausted, raise the combined error carrying every recorded
diagnostic in order. -/
def runPairs : List (Validator × Validator) → List Account → List Account →
    List (String × LayoutError) → Except (List (String × LayoutError)) AttrMap
  | [], _, _, errs => .error errs
  | (v1, v2) :: rest, bpa, bpp, errs =>
    match v1.validate bpa with
    | .error e => runPairs rest bpa bpp (errs ++ [(v1.vname, e)])
    | .ok m1 =>
      match v2.validate bpp with
      | .error e => runPairs rest bpa bpp (errs ++ [(v2.vname, e)])
      | .ok m2 => .ok (m1 ++ m2)

/-- `BalanceSheet.from_accounts`: run the validator pairs in their fixed
priority order over fresh views of the two account sequences, starting with
an empty diagnostic list. -/
def from_accounts (pairs : List (Validator × Validator))
    (bpa bpp : List Account) : Except (List (String × LayoutError)) AttrMap :=
  runPairs pairs bpa bpp []

/-- The diagnostic one pair's attempt records, if it fails: the BPA error
when that side fails (the BPP side is then never attempted), otherwise the
BPP error when that side fails, otherwise `none` (both sides matched). -/
def attemptDiag (pr : Validator × Validator) (bpa bpp : List Account) :
    Option (String × LayoutError) :=
  match pr.1.validate bpa with
  | .error e => some (pr.1.vname, e)
  | .ok _ =>
    match pr.2.validate bpp with
    | .error e => some (pr.2.vname, e)
    | .ok _ => none

/-- The `BalanceSheet` dataclass of `cvm/balances/balance_sheet.py`
(declared fields only; `gross_debt` and `net_debt` are cached properties,
embedded below as functions). -/
structure BalanceSheet where
  total_assets : Int
  current_assets : Option Int
  cash_and_cash_equivalents : Int
  financial_investments : Int
  receivables : Int
  noncurrent_assets : Option Int
  investments : Int
  fixed_assets : Int
  intangible_assets : Int
  total_liabilities : Int
  current_liabilities : Option Int
  current_loans_and_financing : Option Int
  noncurrent_liabilities : Option Int
  noncurrent_loans_and_financing : Option Int
  equity : Int
deriving DecidableEq

/-- `BalanceSheet.gross_debt`:
`abs(current_loans_and_financing + noncurrent_loans_and_financing)`;
the `TypeError` raised when either operand is `None` is caught and turned
into `None`. -/
def BalanceSheet.gross_debt (bs : BalanceSheet) : Option Int :=
  match bs.current_loans_and_financing, bs.noncurrent_loans_and_financing with
  | some x, some y => some |x + y|
  | _, _ => none

/-- `BalanceSheet.net_debt`: `gross_debt - cash_and_cash_equivalents`; the
`TypeError` raised when `gross_debt` is `None` is caught and turned into
`None`. -/
def BalanceSheet.net_debt (bs : BalanceSheet) : Option Int :=
  match bs.gross_debt with
  | some g => some (g - bs.cash_and_cash_equivalents)
  | none => none

/-- The `StatementGroup` enum of `cvm/parsing/dfp/statement.py`. -/
inductive StatementGroup where
  | BPA | BPP | DRE | DRA | DMPL | DFC_MD | DFC_MI | DVA
deriving DecidableEq

/-- One balance class of the `cls_list` handed to
`Statement._parse_balance`: calling `cls(accounts_iter)` either constructs a
balance (here: its attribute map) or raises `ValueError`; in both cases it
leaves the shared iterator at some remaining position, returned explicitly. -/
abbrev BalanceCls := List Account → Option AttrMap × List Account

/-- `Statement._parse_balance`: try each class on the shared account
iterator; a `ValueError` is swallowed and the next class continues from
wherever the failed attempt left the iterator; if no class succeeds, raise
`ValueError('invalid/unknown balance layout')` (the error case). -/
def parse_balance : List BalanceCls → List Account → Except Unit AttrMap
  | [], _ => .error ()
  | c :: rest, accounts =>
    match c accounts with
    | (some m, _) => .ok m
    | (none, remaining) => parse_balance rest remaining

/-- `Statement.balance`: dispatch on the statement group. Groups `BPA` and
`DRE` run `_parse_balance` with their class lists; every other group falls
through the `if`/`elif` chain, so Python returns `None`. -/
def statementBalance (bpaClasses dreClasses : List BalanceCls)
    (group : StatementGroup) (accounts : List Account) :
    Option (Except Unit AttrMap) :=
  match group with
  | .BPA => some (parse_balance bpaClasses accounts)
  | .DRE => some (parse_balance dreClasses accounts)
  | _ => none

theorem pullAccount_detail {σ : Type} (parse : σ → Account → σ) (ml : Nat)
    (e : LayoutEntry) (i : Nat) (s : σ) (a : Account) (rest : List Account)
    (h : skeletonCandidate ml a = false) :
    pullAccount parse ml e i s (a :: rest) =
      pullAccount parse ml e i (parse s a) rest := by
  simp [pullAccount, h]

theorem pullAccount_skip_details {σ : Type} (parse : σ → Account → σ) (ml : Nat)
    (e : LayoutEntry) (i : Nat) (ds : List Account)
    (h : (ds.all fun a => ! skeletonCandidate ml a) = true) :
    ∀ (s : σ) (rest : List Account),
      pullAccount parse ml e i s (ds ++ rest) =
        pullAccount parse ml e i (ds.foldl parse s) rest := by
  induction ds with
  | nil => intro s rest; simp
  | cons a ds ih =>
    intro s rest
    simp only [List.all_cons, Bool.and_eq_true, Bool.not_eq_true'] at h
    rw [List.cons_append, pullAccount_detail parse ml e i s a _ h.1,
      ih h.2, List.foldl_cons]

theorem pullAccount_skeleton {σ : Type} (parse : σ → Account → σ) (ml : Nat)
    (e : LayoutEntry) (i : Nat) (s : σ) (a : Account) (rest : List Account)
    (h : skeletonCandidate ml a = true) (hc : a.code = e.expected_code)
    (hn : a.name = e.expected_name) :
    pullAccount parse ml e i s (a :: rest) = .ok (a.quantity, s, rest) := by
  simp [pullAccount, h, hc, hn]

theorem pullAccount_code_mismatch {σ : Type} (parse : σ → Account → σ) (ml : Nat)
    (e : LayoutEntry) (i : Nat) (s : σ) (a : Account) (rest : List Account)
    (h : skeletonCandidate ml a = true) (hc : a.code ≠ e.expected_code) :
    pullAccount parse ml e i s (a :: rest) =
      .error (.codeMismatch i a.code e.expected_code) := by
  simp [pullAccount, h, hc]

theorem pullAccount_name_mismatch {σ : Type} (parse : σ → Account → σ) (ml : Nat)
    (e : LayoutEntry) (i : Nat) (s : σ) (a : Account) (rest : List Account)
    (h : skeletonCandidate ml a = true) (hc : a.code = e.expected_code)
    (hn : a.name ≠ e.expected_name) :
    pullAccount parse ml e i s (a :: rest) =
      .error (.nameMismatch i a.name e.expected_name) := by
  simp [pullAccount, h, hc, hn]

theorem matchEntries_cons_eq {σ : Type} (parse : σ → Account → σ) (ml : Nat)
    (e : LayoutEntry) (es : List LayoutEntry) (i : Nat) (s : σ)
    (attrs : AttrMap) (accounts : List Account) :
    matchEntries parse ml (e :: es) i s attrs accounts =
      match pullAccount parse ml e i s accounts with
      | .error err => .error err
      | .ok (q, s', rest) =>
          matchEntries parse ml es (i + 1) s' (insertAttr attrs e.attr q) rest := rfl

theorem matchEntries_buildSeq {σ : Type} (parse : σ → Account → σ) (ml : Nat) :
    ∀ (es1 : List LayoutEntry) (blocks : List (List Account × Account))
      (es2 : List LayoutEntry) (i : Nat) (s : σ) (attrs : AttrMap)
      (rest : List Account),
      es1.length = blocks.length →
      ((es1.zip blocks).all fun p => entryBlockOk ml p.1 p.2) = true →
      matchEntries parse ml (es1 ++ es2) i s attrs (buildSeq blocks ++ rest) =
        matchEntries parse ml es2 (i + es1.length) (detailsFold parse s blocks)
          (blockAttrs attrs es1 blocks) rest := by
  intro es1
  induction es1 with
  | nil =>
    intro blocks es2 i s attrs rest hlen hok
    have hb : blocks = [] := by
      cases blocks with
      | nil => rfl
      | cons b bs => simp at hlen
    subst hb
    simp [buildSeq, detailsFold, blockAttrs]
  | cons e es1 ih =>
    intro blocks es2 i s attrs rest hlen hok
    cases blocks with
    | nil => simp at hlen
    | cons b bs =>
      simp only [List.zip_cons_cons, List.all_cons, Bool.and_eq_true] at hok
      have hblk := hok.1
      simp only [entryBlockOk, Bool.and_eq_true, beq_iff_eq] at hblk
      have hseq : buildSeq (b :: bs) ++ rest = b.1 ++ (b.2 :: (buildSeq bs ++ rest)) := by
        simp [buildSeq, List.append_assoc]
      rw [List.cons_append, hseq, matchEntries_cons_eq,
        pullAccount_skip_details parse ml e i b.1 hblk.1.1.1,
        pullAccount_skeleton parse ml e i _ b.2 _ hblk.1.1.2 hblk.1.2 hblk.2]
      dsimp only
      simp only [List.length_cons] at hlen
      rw [ih bs es2 (i + 1) (b.1.foldl parse s)
        (insertAttr attrs e.attr b.2.quantity) rest (by omega) hok.2]
      have hidx : i + 1 + es1.length = i + (es1.length + 1) := by omega
      rw [hidx]
      rfl

theorem matchEntries_exhaust {σ : Type} (parse : σ → Account → σ) (ml : Nat)
    (e : LayoutEntry) (es : List LayoutEntry) (i : Nat) (s : σ)
    (attrs : AttrMap) (ds : List Account)
    (h : (ds.all fun a => ! skeletonCandidate ml a) = true) :
    matchEntries parse ml (e :: es) i s attrs ds = .error (.tooFewAccounts i) := by
  have hp := pullAccount_skip_details parse ml e i ds h s []
  rw [List.append_nil] at hp
  rw [matchEntries_cons_eq, hp]
  rfl

theorem insertAttr_of_not_mem (attrs : AttrMap) (k : String) (v : Int)
    (h : ∀ p ∈ attrs, p.1 ≠ k) : insertAttr attrs k v = attrs ++ [(k, v)] := by
  unfold insertAttr
  rw [if_neg]
  simp only [List.any_eq_true, beq_iff_eq, not_exists]
  intro p hp
  exact h p hp.1 hp.2

theorem blockAttrs_eq : ∀ (es : List LayoutEntry)
    (blocks : List (List Account × Account)) (attrs : AttrMap),
    es.length = blocks.length →
    (es.map LayoutEntry.attr).Nodup →
    (∀ e ∈ es, ∀ p ∈ attrs, p.1 ≠ e.attr) →
    blockAttrs attrs es blocks =
      attrs ++ (es.zip blocks).map fun p => (p.1.attr, p.2.2.quantity) := by
  intro es
  induction es with
  | nil => intro blocks attrs _ _ _; simp [blockAttrs]
  | cons e es ih =>
    intro blocks attrs hlen hnd hdisj
    cases blocks with
    | nil => simp at hlen
    | cons b bs =>
      simp only [List.length_cons] at hlen
      simp only [List.map_cons, List.nodup_cons] at hnd
      have hstep : blockAttrs attrs (e :: es) (b :: bs) =
          blockAttrs (insertAttr attrs e.attr b.2.quantity) es bs := rfl
      rw [hstep, insertAttr_of_not_mem attrs e.attr b.2.quantity
        (fun p hp => hdisj e (List.mem_cons_self e es) p hp)]
      rw [ih bs (attrs ++ [(e.attr, b.2.quantity)]) (by omega) hnd.2 ?_]
      · simp [List.append_assoc]
      · intro e' he' p hp
        rcases List.mem_append.mp hp with hp1 | hp2
        · exact hdisj e' (List.mem_cons_of_mem e he') p hp1
        · have hpe : p = (e.attr, b.2.quantity) := by simpa using hp2
          subst hpe
          intro hcontra
          apply hnd.1
          have hattr : e.attr = e'.attr := hcontra
          rw [hattr]
          exact List.mem_map_of_mem LayoutEntry.attr he'

/-- C1: for every non-empty layout with pairwise-distinct attribute keys and
every account sequence presenting the layout's skeleton accounts (matching
code and name exactly) in layout order, interleaved with arbitrary detail
accounts and followed by arbitrary trailing accounts, `make_balance` with
the default no-op parser succeeds and returns exactly the layout's
attribute keys, each mapped to the quantity of the corresponding skeleton
account; the result is independent of the detail blocks and the trailing
accounts are ignored. -/
theorem C1_interleaved_skeleton_match (layout : List LayoutEntry)
    (blocks : List (List Account × Account)) (trailing : List Account)
    (hne : layout ≠ [])
    (hnd : (layout.map LayoutEntry.attr).Nodup)
    (hlen : layout.length = blocks.length)
    (hok : ((layout.zip blocks).all fun p =>
      entryBlockOk (layoutMaxLevel layout) p.1 p.2) = true) :
    make_balance AccountParser.noop layout (buildSeq blocks ++ trailing) =
      .ok ((layout.zip blocks).map fun p => (p.1.attr, p.2.2.quantity)) := by
  unfold make_balance
  rw [if_neg (by simpa [List.isEmpty_iff] using hne)]
  have h := matchEntries_buildSeq AccountParser.noop.parse (layoutMaxLevel layout)
    layout blocks [] 0 AccountParser.noop.init [] trailing hlen hok
  rw [List.append_nil] at h
  rw [h]
  have hattrs := blockAttrs_eq layout blocks [] hlen hnd (by intro e _ p hp; simp at hp)
  rw [hattrs]
  simp [matchEntries, finishWith, AccountParser.noop]

/-- Witness for C1: the two-entry layout `[("1","A",k1), ("2","B",k2)]`
matched against a sequence with one detail account before the first
skeleton account, one deep fixed account before the second, and a trailing
account, yields `{k1 ↦ 10, k2 ↦ 20}`. -/
theorem C1_witness :
    make_balance AccountParser.noop [⟨"1", "A", "k1"⟩, ⟨"2", "B", "k2"⟩]
      (buildSeq [([⟨"9", "x", 5, false⟩], ⟨"1", "A", 10, true⟩),
        ([⟨"1.01.02", "deep", 7, true⟩], ⟨"2", "B", 20, true⟩)] ++
        [⟨"3", "C", 9, true⟩]) =
      .ok [("k1", 10), ("k2", 20)] := by
  rw [C1_interleaved_skeleton_match [⟨"1", "A", "k1"⟩, ⟨"2", "B", "k2"⟩]
    [([⟨"9", "x", 5, false⟩], ⟨"1", "A", 10, true⟩),
      ([⟨"1.01.02", "deep", 7, true⟩], ⟨"2", "B", 20, true⟩)]
    [⟨"3", "C", 9, true⟩] (by decide) (by decide) (by decide) (by decide)]
  decide

/-- C2 counterexample: the claim says every sequence missing one of the
layout's skeleton accounts fails with `TooFewAccounts` at the missing
entry's index. For the layout `[("1","A",k1), ("2","B",k2)]`, the sequence
`[("2","B",20,fixed)]` is missing entry 0's skeleton account, yet matching
fails with `CodeMismatch` (the entry-1 skeleton account is pulled and
compared at position 0), not with `TooFewAccounts`. -/
theorem C2_counterexample :
    make_balance AccountParser.noop [⟨"1", "A", "k1"⟩, ⟨"2", "B", "k2"⟩]
        [⟨"2", "B", 20, true⟩] =
      .error (.layoutErr (.codeMismatch 0 "2" "1")) ∧
    make_balance AccountParser.noop [⟨"1", "A", "k1"⟩, ⟨"2", "B", "k2"⟩]
        [⟨"2", "B", 20, true⟩] ≠
      .error (.layoutErr (.tooFewAccounts 0)) ∧
    make_balance AccountParser.noop [⟨"1", "A", "k1"⟩, ⟨"2", "B", "k2"⟩]
        [⟨"2", "B", 20, true⟩] ≠
      .error (.layoutErr (.tooFewAccounts 1)) := by
  refine ⟨by decide, by decide, by decide⟩

/-- C2 (amended): for every account sequence that presents the skeleton
accounts of the first `i` layout entries (interleaved with detail
accounts) and from then on contains only detail accounts — so the skeleton
account of entry `i` is missing and no later skeleton candidate can be
pulled in its place — matching fails with `TooFewAccounts` and the carried
position equals `i`, the index of the entry whose skeleton account is
missing. This holds for every category parser. -/
theorem C2_missing_skeleton_too_few {σ : Type} (p : AccountParser σ)
    (es1 : List LayoutEntry) (e : LayoutEntry) (es2 : List LayoutEntry)
    (blocks : List (List Account × Account)) (ds : List Account)
    (hlen : es1.length = blocks.length)
    (hok : ((es1.zip blocks).all fun q =>
      entryBlockOk (layoutMaxLevel (es1 ++ e :: es2)) q.1 q.2) = true)
    (hds : (ds.all fun a =>
      ! skeletonCandidate (layoutMaxLevel (es1 ++ e :: es2)) a) = true) :
    make_balance p (es1 ++ e :: es2) (buildSeq blocks ++ ds) =
      .error (.layoutErr (.tooFewAccounts es1.length)) := by
  unfold make_balance
  rw [if_neg (by simp [List.isEmpty_iff])]
  rw [matchEntries_buildSeq p.parse (layoutMaxLevel (es1 ++ e :: es2))
    es1 blocks (e :: es2) 0 p.init [] ds hlen hok]
  rw [matchEntries_exhaust p.parse _ e es2 _ _ _ ds hds]
  simp [finishWith]

/-- Witness for the amended C2: a one-block prefix matching entry 0,
followed by a single detail account, fails with `TooFewAccounts` at
position 1, the index of the missing second entry. -/
theorem C2_witness :
    make_balance AccountParser.noop
        ([⟨"1", "A", "k1"⟩] ++ ⟨"2", "B", "k2"⟩ :: [])
        (buildSeq [([], ⟨"1", "A", 10, true⟩)] ++ [⟨"9", "x", 1, false⟩]) =
      .error (.layoutErr (.tooFewAccounts 1)) := by
  have h := C2_missing_skeleton_too_few AccountParser.noop [⟨"1", "A", "k1"⟩]
    ⟨"2", "B", "k2"⟩ [] [([], ⟨"1", "A", 10, true⟩)] [⟨"9", "x", 1, false⟩]
    (by decide) (by decide) (by decide)
  simpa using h

/-- C9: `make_balance` on a layout with zero entries raises the generic
`ValueError` coming from `max()` over an empty sequence — not a layout
error — for every parser and every account sequence (so before and
independently of any account in the cursor); for every non-empty layout
this failure is unreachable. -/
theorem C9_empty_layout_value_error :
    (∀ (σ : Type) (p : AccountParser σ) (accounts : List Account),
      make_balance p [] accounts = .error .valueError) ∧
    (∀ (σ : Type) (p : AccountParser σ) (layout : List LayoutEntry)
      (accounts : List Account), layout ≠ [] →
      make_balance p layout accounts ≠ .error .valueError) := by
  constructor
  · intro σ p accounts
    rfl
  · intro σ p layout accounts hne
    unfold make_balance
    rw [if_neg (by simpa [List.isEmpty_iff] using hne)]
    cases h : matchEntries p.parse (layoutMaxLevel layout) layout 0 p.init [] accounts with
    | error e => simp [finishWith]
    | ok r => simp [finishWith]

/-- Witness for C9: the empty layout yields `ValueError` on a non-empty
cursor, and a one-entry layout never yields `ValueError`. -/
theorem C9_witness :
    make_balance AccountParser.noop [] [⟨"1", "A", 1, true⟩] =
      .error .valueError ∧
    make_balance AccountParser.noop [⟨"1", "A", "k1"⟩] [] ≠
      .error .valueError :=
  ⟨C9_empty_layout_value_error.1 Unit AccountParser.noop [⟨"1", "A", 1, true⟩],
    C9_empty_layout_value_error.2 Unit AccountParser.noop [⟨"1", "A", "k1"⟩] []
      (by decide)⟩

/-- C5: when the matcher, having matched the first `es1.length` layout
entries and skipped further detail accounts `ds`, pulls a skeleton
candidate `acc` for entry `i = es1.length`, it compares the code first: a
code mismatch fails with `CodeMismatch` carrying `i` and the found and
expected codes; `NameMismatch` (carrying `i` and the found and expected
names) fires only when the code is equal but the name differs; when both
are equal the quantity is stored under the entry's attribute key and
matching advances to the next entry. -/
theorem C5_code_before_name {σ : Type} (p : AccountParser σ)
    (es1 : List LayoutEntry) (e : LayoutEntry) (es2 : List LayoutEntry)
    (blocks : List (List Account × Account)) (ds : List Account)
    (acc : Account) (rest : List Account)
    (hlen : es1.length = blocks.length)
    (hok : ((es1.zip blocks).all fun q =>
      entryBlockOk (layoutMaxLevel (es1 ++ e :: es2)) q.1 q.2) = true)
    (hds : (ds.all fun a =>
      ! skeletonCandidate (layoutMaxLevel (es1 ++ e :: es2)) a) = true)
    (hcand : skeletonCandidate (layoutMaxLevel (es1 ++ e :: es2)) acc = true) :
    (acc.code ≠ e.expected_code →
      make_balance p (es1 ++ e :: es2)
          (buildSeq blocks ++ (ds ++ acc :: rest)) =
        .error (.layoutErr
          (.codeMismatch es1.length acc.code e.expected_code))) ∧
    (acc.code = e.expected_code → acc.name ≠ e.expected_name →
      make_balance p (es1 ++ e :: es2)
          (buildSeq blocks ++ (ds ++ acc :: rest)) =
        .error (.layoutErr
          (.nameMismatch es1.length acc.name e.expected_name))) ∧
    (acc.code = e.expected_code → acc.name = e.expected_name →
      make_balance p (es1 ++ e :: es2)
          (buildSeq blocks ++ (ds ++ acc :: rest)) =
        finishWith p (matchEntries p.parse (layoutMaxLevel (es1 ++ e :: es2))
          es2 (es1.length + 1)
          (ds.foldl p.parse (detailsFold p.parse p.init blocks))
          (insertAttr (blockAttrs [] es1 blocks) e.attr acc.quantity) rest)) := by
  have hkey : make_balance p (es1 ++ e :: es2)
      (buildSeq blocks ++ (ds ++ acc :: rest)) =
      finishWith p (matchEntries p.parse (layoutMaxLevel (es1 ++ e :: es2))
        (e :: es2) es1.length (detailsFold p.parse p.init blocks)
        (blockAttrs [] es1 blocks) (ds ++ acc :: rest)) := by
    unfold make_balance
    rw [if_neg (by simp [List.isEmpty_iff])]
    rw [matchEntries_buildSeq p.parse (layoutMaxLevel (es1 ++ e :: es2))
      es1 blocks (e :: es2) 0 p.init [] (ds ++ acc :: rest) hlen hok,
      Nat.zero_add]
  rw [matchEntries_cons_eq, pullAccount_skip_details p.parse _ e _ ds hds] at hkey
  refine ⟨?_, ?_, ?_⟩
  · intro hc
    rw [hkey, pullAccount_code_mismatch p.parse _ e _ _ acc rest hcand hc]
    rfl
  · intro hc hn
    rw [hkey, pullAccount_name_mismatch p.parse _ e _ _ acc rest hcand hc hn]
    rfl
  · intro hc hn
    rw [hkey, pullAccount_skeleton p.parse _ e _ _ acc rest hcand hc hn]

/-- Witness for C5: with the one-entry layout `[("1","A",k1)]` and an empty
prefix, a fixed level-1 account with code `"9"` triggers `CodeMismatch 0`,
one with code `"1"` but name `"Z"` triggers `NameMismatch 0`, and the exact
skeleton account is stored under `k1`. -/
theorem C5_witness :
    make_balance AccountParser.noop ([] ++ ⟨"1", "A", "k1"⟩ :: [])
        (buildSeq [] ++ ([] ++ ⟨"9", "Z", 1, true⟩ :: [])) =
      .error (.layoutErr (.codeMismatch 0 "9" "1")) ∧
    make_balance AccountParser.noop ([] ++ ⟨"1", "A", "k1"⟩ :: [])
        (buildSeq [] ++ ([] ++ ⟨"1", "Z", 1, true⟩ :: [])) =
      .error (.layoutErr (.nameMismatch 0 "Z" "A")) ∧
    make_balance AccountParser.noop ([] ++ ⟨"1", "A", "k1"⟩ :: [])
        (buildSeq [] ++ ([] ++ ⟨"1", "A", 10, true⟩ :: [])) =
      .ok [("k1", 10)] := by
  refine ⟨?_, ?_, ?_⟩
  · exact (C5_code_before_name AccountParser.noop [] ⟨"1", "A", "k1"⟩ [] [] []
      ⟨"9", "Z", 1, true⟩ [] (by decide) (by decide) (by decide) (by decide)).1
      (by decide)
  · exact (C5_code_before_name AccountParser.noop [] ⟨"1", "A", "k1"⟩ [] [] []
      ⟨"1", "Z", 1, true⟩ [] (by decide) (by decide) (by decide)
      (by decide)).2.1 rfl (by decide)
  · rw [(C5_code_before_name AccountParser.noop [] ⟨"1", "A", "k1"⟩ [] [] []
      ⟨"1", "A", 10, true⟩ [] (by decide) (by decide) (by decide)
      (by decide)).2.2 rfl rfl]
    decide

/-- C6: an account pulled by the matcher that is not a skeleton candidate
(`is_fixed` false, or fixed but with level above the layout maximum) is
never compared against the current layout entry and causes no failure: it
is handed to the category parser's `parse` hook and the matcher keeps
pulling from the cursor for the same layout entry, at the same position.
This holds for every parser state type and `parse` function. -/
theorem C6_detail_account_to_hook {σ : Type} (parse : σ → Account → σ)
    (ml : Nat) (e : LayoutEntry) (es : List LayoutEntry) (i : Nat) (s : σ)
    (attrs : AttrMap) (a : Account) (accounts : List Account)
    (h : skeletonCandidate ml a = false) :
    matchEntries parse ml (e :: es) i s attrs (a :: accounts) =
      matchEntries parse ml (e :: es) i (parse s a) attrs accounts := by
  rw [matchEntries_cons_eq, matchEntries_cons_eq,
    pullAccount_detail parse ml e i s a accounts h]

/-- Witness for C6: with a parser that counts the accounts it is handed, a
non-fixed account is passed to `parse` (the count goes from 0 to 1) and
matching of entry 0 continues on the remaining cursor. -/
theorem C6_witness :
    matchEntries (fun (n : Nat) _ => n + 1) 1 [⟨"1", "A", "k1"⟩] 0 0 []
        [⟨"9", "x", 5, false⟩, ⟨"1", "A", 10, true⟩] =
      matchEntries (fun (n : Nat) _ => n + 1) 1 [⟨"1", "A", "k1"⟩] 0 1 []
        [⟨"1", "A", 10, true⟩] :=
  C6_detail_account_to_hook (fun n _ => n + 1) 1 ⟨"1", "A", "k1"⟩ [] 0 0 []
    ⟨"9", "x", 5, false⟩ [⟨"1", "A", 10, true⟩] (by decide)

theorem attemptDiag_none (pr : Validator × Validator) (bpa bpp : List Account)
    (h : attemptDiag pr bpa bpp = none) :
    ∃ m1 m2, pr.1.validate bpa = .ok m1 ∧ pr.2.validate bpp = .ok m2 := by
  unfold attemptDiag at h
  cases hv1 : pr.1.validate bpa with
  | error e => rw [hv1] at h; simp at h
  | ok m1 =>
    rw [hv1] at h
    cases hv2 : pr.2.validate bpp with
    | error e => rw [hv2] at h; simp at h
    | ok m2 => exact ⟨m1, m2, rfl, rfl⟩

theorem runPairs_cons_eq (v1 v2 : Validator)
    (rest : List (Validator × Validator)) (bpa bpp : List Account)
    (errs : List (String × LayoutError)) :
    runPairs ((v1, v2) :: rest) bpa bpp errs =
      match v1.validate bpa with
      | .error e => runPairs rest bpa bpp (errs ++ [(v1.vname, e)])
      | .ok m1 =>
        match v2.validate bpp with
        | .error e => runPairs rest bpa bpp (errs ++ [(v2.vname, e)])
        | .ok m2 => .ok (m1 ++ m2) := rfl

theorem runPairs_head_fail (pr : Validator × Validator)
    (rest : List (Validator × Validator)) (bpa bpp : List Account)
    (errs : List (String × LayoutError)) (d : String × LayoutError)
    (h : attemptDiag pr bpa bpp = some d) :
    runPairs (pr :: rest) bpa bpp errs = runPairs rest bpa bpp (errs ++ [d]) := by
  obtain ⟨v1, v2⟩ := pr
  unfold attemptDiag at h
  rw [runPairs_cons_eq]
  cases hv1 : v1.validate bpa with
  | error e =>
    rw [hv1] at h
    simp only [Option.some.injEq] at h
    rw [← h]
  | ok m1 =>
    rw [hv1] at h
    cases hv2 : v2.validate bpp with
    | error e =>
      rw [hv2] at h
      simp only [Option.some.injEq] at h
      rw [← h]
    | ok m2 => rw [hv2] at h; simp at h

theorem runPairs_head_ok (pr : Validator × Validator)
    (rest : List (Validator × Validator)) (bpa bpp : List Account)
    (errs : List (String × LayoutError)) (m1 m2 : AttrMap)
    (h1 : pr.1.validate bpa = .ok m1) (h2 : pr.2.validate bpp = .ok m2) :
    runPairs (pr :: rest) bpa bpp errs = .ok (m1 ++ m2) := by
  obtain ⟨v1, v2⟩ := pr
  rw [runPairs_cons_eq, h1, h2]

theorem runPairs_all_fail :
    ∀ (ps : List (Validator × Validator)) (bpa bpp : List Account)
      (errs : List (String × LayoutError)),
      (∀ q ∈ ps, attemptDiag q bpa bpp ≠ none) →
      runPairs ps bpa bpp errs =
        .error (errs ++ ps.filterMap fun q => attemptDiag q bpa bpp) := by
  intro ps
  induction ps with
  | nil => intro bpa bpp errs _; simp [runPairs]
  | cons q qs ih =>
    intro bpa bpp errs hall
    cases hd : attemptDiag q bpa bpp with
    | none => exact absurd hd (hall q (List.mem_cons_self q qs))
    | some d =>
      rw [runPairs_head_fail q qs bpa bpp errs d hd,
        ih bpa bpp (errs ++ [d]) (fun r hr => hall r (List.mem_cons_of_mem q hr))]
      simp [List.filterMap_cons, hd]

theorem runPairs_skip_failed :
    ∀ (ps1 ps2 : List (Validator × Validator)) (bpa bpp : List Account)
      (errs : List (String × LayoutError)),
      (∀ q ∈ ps1, attemptDiag q bpa bpp ≠ none) →
      runPairs (ps1 ++ ps2) bpa bpp errs =
        runPairs ps2 bpa bpp
          (errs ++ ps1.filterMap fun q => attemptDiag q bpa bpp) := by
  intro ps1
  induction ps1 with
  | nil => intro ps2 bpa bpp errs _; simp
  | cons q qs ih =>
    intro ps2 bpa bpp errs hall
    cases hd : attemptDiag q bpa bpp with
    | none => exact absurd hd (hall q (List.mem_cons_self q qs))
    | some d =>
      rw [List.cons_append, runPairs_head_fail q (qs ++ ps2) bpa bpp errs d hd,
        ih ps2 bpa bpp (errs ++ [d]) (fun r hr => hall r (List.mem_cons_of_mem q hr))]
      simp [List.filterMap_cons, hd]

theorem runPairs_error_all_fail :
    ∀ (ps : List (Validator × Validator)) (bpa bpp : List Account)
      (errs errsOut : List (String × LayoutError)),
      runPairs ps bpa bpp errs = .error errsOut →
      ∀ q ∈ ps, attemptDiag q bpa bpp ≠ none := by
  intro ps
  induction ps with
  | nil => intro bpa bpp errs errsOut _ q hq; simp at hq
  | cons r rs ih =>
    intro bpa bpp errs errsOut hrun q hq
    cases hd : attemptDiag r bpa bpp with
    | none =>
      obtain ⟨m1, m2, h1, h2⟩ := attemptDiag_none r bpa bpp hd
      rw [runPairs_head_ok r rs bpa bpp errs m1 m2 h1 h2] at hrun
      exact absurd hrun (by simp)
    | some d =>
      rcases List.mem_cons.mp hq with hq1 | hq2
      · subst hq1; simp [hd]
      · rw [runPairs_head_fail r rs bpa bpp errs d hd] at hrun
        exact ih bpa bpp (errs ++ [d]) errsOut hrun q hq2

/-- C3: in `BalanceSheet.from_accounts`, for every candidate pair: if the
assets (BPA) side fails, the liabilities (BPP) validator of that pair is
never attempted (the outcome is the same for any BPP validator in that
slot) and the resolver moves on to the next pair with the BPA diagnostic
recorded; if the BPA side succeeds but the BPP side fails, the BPA success
is discarded (the continuation does not depend on the returned BPA
attributes) and the resolver moves on with the BPP diagnostic recorded. In
both equations the remaining pairs receive the original, unconsumed
`bpa`/`bpp` account sequences: every attempt runs on a fresh cursor, so an
earlier failed attempt cannot affect a later one. -/
theorem C3_resolver_per_pair (v1 v2 v2' : Validator)
    (rest : List (Validator × Validator)) (bpa bpp : List Account)
    (errs : List (String × LayoutError)) :
    (∀ e, v1.validate bpa = .error e →
      runPairs ((v1, v2) :: rest) bpa bpp errs =
        runPairs rest bpa bpp (errs ++ [(v1.vname, e)]) ∧
      runPairs ((v1, v2) :: rest) bpa bpp errs =
        runPairs ((v1, v2') :: rest) bpa bpp errs) ∧
    (∀ m e, v1.validate bpa = .ok m → v2.validate bpp = .error e →
      runPairs ((v1, v2) :: rest) bpa bpp errs =
        runPairs rest bpa bpp (errs ++ [(v2.vname, e)])) := by
  constructor
  · intro e he
    constructor
    · rw [runPairs_cons_eq, he]
    · rw [runPairs_cons_eq, runPairs_cons_eq, he]
  · intro m e hm he
    rw [runPairs_cons_eq, hm, he]

/-- Witness for C3: with a failing BPA validator the result is the combined
error recording only that failure, whatever the BPP validator does; with a
succeeding BPA validator and failing BPP validator the BPP diagnostic is
recorded and the BPA attributes are dropped. -/
theorem C3_witness :
    runPairs [(⟨"IndustrialBPA", fun _ => .error (.tooFewAccounts 0)⟩,
        ⟨"IndustrialBPP", fun _ => .ok [("equity", 1)]⟩)] [] [] [] =
      runPairs [] [] [] [("IndustrialBPA", .tooFewAccounts 0)] ∧
    runPairs [(⟨"FinancialBPA", fun _ => .ok [("total_assets", 7)]⟩,
        ⟨"FinancialBPP", fun _ => .error (.codeMismatch 0 "2" "1")⟩)] [] [] [] =
      runPairs [] [] [] [("FinancialBPP", .codeMismatch 0 "2" "1")] := by
  constructor
  · exact ((C3_resolver_per_pair ⟨"IndustrialBPA", fun _ => .error (.tooFewAccounts 0)⟩
      ⟨"IndustrialBPP", fun _ => .ok [("equity", 1)]⟩
      ⟨"IndustrialBPP", fun _ => .ok [("equity", 1)]⟩ [] [] [] []).1
      (.tooFewAccounts 0) rfl).1
  · exact (C3_resolver_per_pair ⟨"FinancialBPA", fun _ => .ok [("total_assets", 7)]⟩
      ⟨"FinancialBPP", fun _ => .error (.codeMismatch 0 "2" "1")⟩
      ⟨"FinancialBPP", fun _ => .error (.codeMismatch 0 "2" "1")⟩ [] [] [] []).2
      [("total_assets", 7)] (.codeMismatch 0 "2" "1") rfl rfl

/-- C4: `from_accounts` tries the configured pairs strictly in order: if
every pair before some pair fails and that pair matches on both sides, the
result is the merge of its two attribute maps (an `.ok`, so no combined
error is constructed); the result is the combined error exactly when every
pair fails, and the combined error then aggregates every recorded
per-category diagnostic in attempt order with none omitted. -/
theorem C4_priority_order_and_aggregation :
    (∀ (ps1 : List (Validator × Validator)) (pr : Validator × Validator)
      (ps2 : List (Validator × Validator)) (bpa bpp : List Account)
      (m1 m2 : AttrMap),
      (∀ q ∈ ps1, attemptDiag q bpa bpp ≠ none) →
      pr.1.validate bpa = .ok m1 → pr.2.validate bpp = .ok m2 →
      from_accounts (ps1 ++ pr :: ps2) bpa bpp = .ok (m1 ++ m2)) ∧
    (∀ (pairs : List (Validator × Validator)) (bpa bpp : List Account),
      (∀ q ∈ pairs, attemptDiag q bpa bpp ≠ none) →
      from_accounts pairs bpa bpp =
        .error (pairs.filterMap fun q => attemptDiag q bpa bpp)) ∧
    (∀ (pairs : List (Validator × Validator)) (bpa bpp : List Account)
      (errsOut : List (String × LayoutError)),
      from_accounts pairs bpa bpp = .error errsOut →
      ∀ q ∈ pairs, attemptDiag q bpa bpp ≠ none) := by
  refine ⟨?_, ?_, ?_⟩
  · intro ps1 pr ps2 bpa bpp m1 m2 hfail h1 h2
    unfold from_accounts
    rw [runPairs_skip_failed ps1 (pr :: ps2) bpa bpp [] hfail,
      runPairs_head_ok pr ps2 bpa bpp _ m1 m2 h1 h2]
  · intro pairs bpa bpp hfail
    unfold from_accounts
    rw [runPairs_all_fail pairs bpa bpp [] hfail]
    simp
  · intro pairs bpa bpp errsOut hrun
    exact runPairs_error_all_fail pairs bpa bpp [] errsOut hrun

/-- Witness for C4: with an industrial pair failing on the BPA side and a
financial pair succeeding on both sides, the resolver returns the merged
financial attributes; with both pairs failing, it returns the combined
error listing both diagnostics in order. -/
theorem C4_witness :
    from_accounts [(⟨"IndustrialBPA", fun _ => .error (.tooFewAccounts 2)⟩,
        ⟨"IndustrialBPP", fun _ => .ok [("equity", 3)]⟩),
      (⟨"FinancialBPA", fun _ => .ok [("total_assets", 7)]⟩,
        ⟨"FinancialBPP", fun _ => .ok [("equity", 3)]⟩)] [] [] =
      .ok [("total_assets", 7), ("equity", 3)] ∧
    from_accounts [(⟨"IndustrialBPA", fun _ => .error (.tooFewAccounts 2)⟩,
        ⟨"IndustrialBPP", fun _ => .ok [("equity", 3)]⟩),
      (⟨"FinancialBPA", fun _ => .ok [("total_assets", 7)]⟩,
        ⟨"FinancialBPP", fun _ => .error (.nameMismatch 1 "x" "y")⟩)] [] [] =
      .error [("IndustrialBPA", .tooFewAccounts 2),
        ("FinancialBPP", .nameMismatch 1 "x" "y")] := by
  constructor
  · exact C4_priority_order_and_aggregation.1
      [(⟨"IndustrialBPA", fun _ => .error (.tooFewAccounts 2)⟩,
        ⟨"IndustrialBPP", fun _ => .ok [("equity", 3)]⟩)]
      (⟨"FinancialBPA", fun _ => .ok [("total_assets", 7)]⟩,
        ⟨"FinancialBPP", fun _ => .ok [("equity", 3)]⟩) [] [] []
      [("total_assets", 7)] [("equity", 3)]
      (by intro q hq; simp at hq; subst hq; simp [attemptDiag]) rfl rfl
  · exact C4_priority_order_and_aggregation.2.1
      [(⟨"IndustrialBPA", fun _ => .error (.tooFewAccounts 2)⟩,
        ⟨"IndustrialBPP", fun _ => .ok [("equity", 3)]⟩),
      (⟨"FinancialBPA", fun _ => .ok [("total_assets", 7)]⟩,
        ⟨"FinancialBPP", fun _ => .error (.nameMismatch 1 "x" "y")⟩)] [] []
      (by intro q hq; simp at hq
          rcases hq with hq | hq <;> subst hq <;> simp [attemptDiag])

/-- C7: for every `BalanceSheet`, `gross_debt` is defined exactly when both
loan components are present and then equals the absolute value of their
sum; absence of either yields `none` (not zero), and `net_debt` is
`gross_debt` minus `cash_and_cash_equivalents`, defined exactly when
`gross_debt` is. In particular, with current loans 100, noncurrent loans
-400 and cash 50, `gross_debt` is 300 and `net_debt` is 250. -/
theorem C7_derived_debt_fields :
    (∀ bs : BalanceSheet,
      (bs.gross_debt.isSome ↔
        (bs.current_loans_and_financing.isSome ∧
          bs.noncurrent_loans_and_financing.isSome)) ∧
      (∀ x y, bs.current_loans_and_financing = some x →
        bs.noncurrent_loans_and_financing = some y →
        bs.gross_debt = some |x + y|) ∧
      ((bs.current_loans_and_financing = none ∨
        bs.noncurrent_loans_and_financing = none) →
        bs.gross_debt = none ∧ bs.net_debt = none) ∧
      bs.net_debt = bs.gross_debt.map
        (fun g => g - bs.cash_and_cash_equivalents)) ∧
    ((⟨0, none, 50, 0, 0, none, 0, 0, 0, 0, none, some 100, none,
        some (-400), 0⟩ : BalanceSheet).gross_debt = some 300 ∧
      (⟨0, none, 50, 0, 0, none, 0, 0, 0, 0, none, some 100, none,
        some (-400), 0⟩ : BalanceSheet).net_debt = some 250) := by
  constructor
  · intro bs
    obtain ⟨ta, ca, cash, fi, re, na, inv, fa, ia, tl, cl, clf, ncl, nclf, eq⟩ := bs
    cases clf <;> cases nclf <;>
      simp [BalanceSheet.gross_debt, BalanceSheet.net_debt]
  · constructor
    · decide
    · decide

/-- Witness for C7: the universally quantified part applied to the concrete
balance sheet with both loan components present gives `gross_debt = 300`,
and applied to one with a missing noncurrent component gives
`gross_debt = none` and `net_debt = none`. -/
theorem C7_witness :
    (⟨0, none, 50, 0, 0, none, 0, 0, 0, 0, none, some 100, none,
      some (-400), 0⟩ : BalanceSheet).gross_debt = some 300 ∧
    (⟨0, none, 50, 0, 0, none, 0, 0, 0, 0, none, some 100, none,
      none, 0⟩ : BalanceSheet).gross_debt = none ∧
    (⟨0, none, 50, 0, 0, none, 0, 0, 0, 0, none, some 100, none,
      none, 0⟩ : BalanceSheet).net_debt = none := by
  refine ⟨?_, ?_, ?_⟩
  · have h := (C7_derived_debt_fields.1
      ⟨0, none, 50, 0, 0, none, 0, 0, 0, 0, none, some 100, none,
        some (-400), 0⟩).2.1 100 (-400) rfl rfl
    simpa using h
  · exact ((C7_derived_debt_fields.1
      ⟨0, none, 50, 0, 0, none, 0, 0, 0, 0, none, some 100, none,
        none, 0⟩).2.2.1 (Or.inr rfl)).1
  · exact ((C7_derived_debt_fields.1
      ⟨0, none, 50, 0, 0, none, 0, 0, 0, 0, none, some 100, none,
        none, 0⟩).2.2.1 (Or.inr rfl)).2

/-- C10: `Statement.balance` attempts layout resolution only for the
statement groups `BPA` and `DRE` (where it returns the `_parse_balance`
outcome over the corresponding class list); for every other group (`BPP`,
`DRA`, `DMPL`, `DFC_MD`, `DFC_MI`, `DVA`) it returns `None` — neither a
balance nor an error. -/
theorem C10_balance_group_dispatch (bpaClasses dreClasses : List BalanceCls)
    (g : StatementGroup) (accounts : List Account) :
    (statementBalance bpaClasses dreClasses g accounts = none ↔
      (g ≠ .BPA ∧ g ≠ .DRE)) ∧
    statementBalance bpaClasses dreClasses .BPA accounts =
      some (parse_balance bpaClasses accounts) ∧
    statementBalance bpaClasses dreClasses .DRE accounts =
      some (parse_balance dreClasses accounts) := by
  refine ⟨?_, rfl, rfl⟩
  cases g <;> simp [statementBalance]

/-- Witness for C10: a `DMPL` statement yields `None`, a `BPA` statement
with an empty class list yields the `_parse_balance` error outcome. -/
theorem C10_witness :
    statementBalance [] [] .DMPL [] = none ∧
    statementBalance [] [] .BPA [] = some (.error ()) :=
  ⟨(C10_balance_group_dispatch [] [] .DMPL []).1.mpr (by decide),
    (C10_balance_group_dispatch [] [] .BPA []).2.1⟩

end Cvm
